import Mathlib

/-!
Verification development for a restaurant ordering backend consisting of a
Firestore-backed data-access service (the OrderLedger) and a Telegram
notification service (the NotificationDispatcher).

The embedding is shallow: the Firestore document store is a record of
collections (association lists keyed by generated document ids), each service
method becomes a pure function over that record, and `Timestamp.now()` values
are threaded as explicit parameters.  Monetary amounts (JS numbers in the
source) are modelled as rationals; timestamps as naturals.  The fallible
remote round trips are modelled where a claim concerns the error policy:
a fetch result is an `Except` value, a `try/catch` that re-raises is a `map`
over it, and the chat-bot HTTP endpoint is an oracle `Payload → Bool`
(covering both a response with `ok = false` and a thrown-and-caught error).
-/

namespace RestaurantApp

/-! ## Basic domain types -/

/-- Routing tag on a menu item ('kitchen' | 'bar' strings in the source). -/
inductive Department where
  | kitchen
  | bar
deriving DecidableEq, Repr

/-- A line item attached to an order.  The declared TS interface has id, name,
quantity and total; telegram.ts additionally reads an untyped
`(item as any).department`, so the embedding carries an optional department
field, `none` standing for a record without that field (the shape the
OrderLedger produces). -/
structure OrderItem where
  id : String
  name : String
  quantity : Nat
  total : ℚ
  department : Option Department
deriving DecidableEq, Repr

/-- Timestamps (`Timestamp.now()` / epoch instants) are modelled as naturals,
linearly ordered by age. -/
abbrev Timestamp := Nat

/-- A stored document of the `menuItems` collection.  The department field may
be absent (`none`); `views` likewise. -/
structure MenuItemDoc where
  userId : String
  name : String
  price : ℚ
  views : Option Nat
  department : Option Department
  created_at : Option Timestamp
deriving DecidableEq, Repr

/-- A menu item as returned by `getMenuItems`: the document plus its id, with
the department resolved (defaulted to kitchen). -/
structure MenuItem where
  id : String
  userId : String
  name : String
  price : ℚ
  views : Option Nat
  department : Department
  created_at : Option Timestamp
deriving DecidableEq, Repr

/-- Input of `addMenuItem` (`Omit<MenuItem, 'id'>` with an optional
department). -/
structure MenuItemInput where
  userId : String
  name : String
  price : ℚ
  views : Option Nat
  department : Option Department
deriving DecidableEq, Repr

/-- A pending order, as passed to `approvePendingOrder` and stored in the
`pendingOrders` collection. -/
structure PendingOrder where
  id : String
  userId : String
  tableNumber : String
  items : List OrderItem
  totalAmount : ℚ
  timestamp : Timestamp
deriving DecidableEq, Repr

/-- A stored document of the `orders` collection (an Order without its id). -/
structure OrderDoc where
  userId : String
  tableNumber : String
  items : List OrderItem
  totalAmount : ℚ
  status : String
  paymentStatus : String
  timestamp : Timestamp
deriving DecidableEq, Repr

/-- An order as returned by `getOrders`: id plus document fields. -/
structure Order where
  id : String
  userId : String
  tableNumber : String
  items : List OrderItem
  totalAmount : ℚ
  status : String
  paymentStatus : String
  timestamp : Timestamp
deriving DecidableEq, Repr

/-- A stored document of the `kitchenOrders` / `barOrders` collections, as
written by `sendToDepartment`; `completedAt` is absent until
`markOrderAsComplete` stamps it. -/
structure DeptOrderDoc where
  orderId : String
  userId : String
  items : List OrderItem
  status : String
  createdAt : Timestamp
  completedAt : Option Timestamp
  department : Department
deriving DecidableEq, Repr

/-- A department order as returned by `getKitchenOrders` / `getBarOrders`:
id plus document fields plus the unified `timestamp` field added by the
mapping step. -/
structure DeptOrderView where
  id : String
  orderId : String
  userId : String
  items : List OrderItem
  status : String
  createdAt : Timestamp
  completedAt : Option Timestamp
  department : Department
  timestamp : Timestamp
deriving DecidableEq, Repr

/-- A stored document of the `tableBills` collection. -/
structure TableBillDoc where
  userId : String
  tableNumber : String
  items : List OrderItem
  subtotal : ℚ
  tax : ℚ
  total : ℚ
  status : String
  createdAt : Timestamp
  updatedAt : Timestamp
deriving DecidableEq, Repr

/-- Entry of `MenuStats.popularItems`. -/
structure PopularItem where
  id : String
  name : String
  orders : Nat
deriving DecidableEq, Repr

/-- Entry of `MenuStats.monthlyRevenue`. -/
structure MonthRevenue where
  month : String
  revenue : ℚ
deriving DecidableEq, Repr

/-- The derived aggregate returned by `getMenuStats`. -/
structure MenuStats where
  totalOrders : Nat
  totalRevenue : ℚ
  totalViews : Nat
  popularItems : List PopularItem
  recentOrders : List Order
  monthlyRevenue : List MonthRevenue
deriving DecidableEq, Repr

/-- The document store: one association list per collection, keyed by document
id, in insertion order, plus the id-generation counter of `addDoc`. -/
structure DB where
  menuItems : List (String × MenuItemDoc)
  orders : List (String × OrderDoc)
  pendingOrders : List (String × PendingOrder)
  kitchenOrders : List (String × DeptOrderDoc)
  barOrders : List (String × DeptOrderDoc)
  tableBills : List (String × TableBillDoc)
  nextId : Nat
deriving DecidableEq, Repr

/-- The generated id `addDoc` assigns to the next inserted document. -/
def freshId (db : DB) : String := "doc-" ++ toString db.nextId

/-! ## OrderLedger: menu items -/

/-- The mapping step of `getMenuItems`: `{ id: doc.id, department:
doc.data().department || 'kitchen', ...doc.data() }`.  The spread follows the
department default in the source literal, so a department present in the
stored document wins and the kitchen default applies exactly when the stored
document has no department field. -/
def readMenuItem (p : String × MenuItemDoc) : MenuItem :=
  { id := p.1
    userId := p.2.userId
    name := p.2.name
    price := p.2.price
    views := p.2.views
    department := p.2.department.getD Department.kitchen
    created_at := p.2.created_at }

/-- Body of `getMenuItems` over the fetched `menuItems` collection: query
`where('userId', '==', userId)`, then map each document as `readMenuItem`. -/
def getMenuItemsFrom (docs : List (String × MenuItemDoc)) (userId : String) :
    List MenuItem :=
  (docs.filter (fun p => p.2.userId = userId)).map readMenuItem

/-- `getMenuItems(userId)`. -/
def getMenuItems (db : DB) (userId : String) : List MenuItem :=
  getMenuItemsFrom db.menuItems userId

/-- `getMenuItems` against a fallible fetch of the collection: the `catch`
logs and re-raises the error unchanged (the propagate policy of every
OrderLedger method except `getMenuStats`). -/
def getMenuItemsFetched (res : Except String (List (String × MenuItemDoc)))
    (userId : String) : Except String (List MenuItem) :=
  res.map (fun docs => getMenuItemsFrom docs userId)

/-- The document `addMenuItem` stores: `{ department: item.department ||
'kitchen', ...item, created_at: Timestamp.now() }`.  The spread follows the
department default, so a department present on the input wins and kitchen is
stored exactly when the input has none. -/
def storedMenuItemDoc (item : MenuItemInput) (now : Timestamp) : MenuItemDoc :=
  { userId := item.userId
    name := item.name
    price := item.price
    views := item.views
    department := some (item.department.getD Department.kitchen)
    created_at := some now }

/-- `addMenuItem(item)`: addDoc into `menuItems`, returning the generated id
and the updated store. -/
def addMenuItem (db : DB) (item : MenuItemInput) (now : Timestamp) :
    String × DB :=
  (freshId db,
    { db with
        menuItems := db.menuItems ++ [(freshId db, storedMenuItemDoc item now)]
        nextId := db.nextId + 1 })

/-! ## OrderLedger: orders and department splitting -/

/-- `addOrder(order)`: addDoc into `orders` with `timestamp:
Timestamp.now()` overriding the passed field. -/
def addOrder (db : DB) (order : OrderDoc) (now : Timestamp) : String × DB :=
  (freshId db,
    { db with
        orders := db.orders ++ [(freshId db, { order with timestamp := now })]
        nextId := db.nextId + 1 })

/-- Result shape of `splitItemsByDepartment` (`{ kitchenItems, barItems }`). -/
structure SplitItems where
  kitchenItems : List OrderItem
  barItems : List OrderItem
deriving DecidableEq, Repr

/-- `splitItemsByDepartment(items, menuItems)`: for each item in order, look
up the first menu item with its id; push onto `barItems` when that menu item
is tagged bar, otherwise (including when no menu item is found) onto
`kitchenItems`. -/
def splitItemsByDepartment (items : List OrderItem) (menuItems : List MenuItem) :
    SplitItems :=
  items.foldl
    (fun acc item =>
      match menuItems.find? (fun mi => mi.id = item.id) with
      | some mi =>
          if mi.department = Department.bar then
            { acc with barItems := acc.barItems ++ [item] }
          else
            { acc with kitchenItems := acc.kitchenItems ++ [item] }
      | none => { acc with kitchenItems := acc.kitchenItems ++ [item] })
    { kitchenItems := [], barItems := [] }

/-- The document `sendToDepartment` stores in `${department}Orders`. -/
def deptOrderDoc (orderId userId : String) (items : List OrderItem)
    (department : Department) (now : Timestamp) : DeptOrderDoc :=
  { orderId := orderId
    userId := userId
    items := items
    status := "pending"
    createdAt := now
    completedAt := none
    department := department }

/-- `sendToDepartment(orderId, userId, items, department)`: addDoc into the
department's collection. -/
def sendToDepartment (db : DB) (orderId userId : String)
    (items : List OrderItem) (department : Department) (now : Timestamp) : DB :=
  match department with
  | Department.kitchen =>
      { db with
          kitchenOrders :=
            db.kitchenOrders ++
              [(freshId db, deptOrderDoc orderId userId items Department.kitchen now)]
          nextId := db.nextId + 1 }
  | Department.bar =>
      { db with
          barOrders :=
            db.barOrders ++
              [(freshId db, deptOrderDoc orderId userId items Department.bar now)]
          nextId := db.nextId + 1 }

/-! ## OrderLedger: table bills -/

/-- `getTableBill(userId, tableNumber)`: query `tableBills` by owner, table and
`status == 'active'` with `limit(1)` — the first matching document, or an
explicit absent result. -/
def getTableBill (db : DB) (userId tableNumber : String) :
    Option (String × TableBillDoc) :=
  db.tableBills.find?
    (fun p =>
      p.2.userId = userId ∧ p.2.tableNumber = tableNumber ∧ p.2.status = "active")

/-- The incremental subtotal of a merge: `items.reduce((sum, item) => sum +
item.total, 0)`. -/
def newSubtotal (items : List OrderItem) : ℚ :=
  items.foldl (fun sum item => sum + item.total) 0

/-- The field update `addToTableBill` applies to an existing active bill:
items appended, subtotal/tax/total increased by the incremental subtotal, the
tax on it (`subtotal * 0.15`) and their sum respectively. -/
def mergedBill (b : TableBillDoc) (items : List OrderItem) (now : Timestamp) :
    TableBillDoc :=
  { b with
      items := b.items ++ items
      subtotal := b.subtotal + newSubtotal items
      tax := b.tax + newSubtotal items * 0.15
      total := b.total + (newSubtotal items + newSubtotal items * 0.15)
      updatedAt := now }

/-- The document `addToTableBill` creates when no active bill exists. -/
def freshBill (userId tableNumber : String) (items : List OrderItem)
    (now : Timestamp) : TableBillDoc :=
  { userId := userId
    tableNumber := tableNumber
    items := items
    subtotal := newSubtotal items
    tax := newSubtotal items * 0.15
    total := newSubtotal items + newSubtotal items * 0.15
    status := "active"
    createdAt := now
    updatedAt := now }

/-- `addToTableBill(userId, tableNumber, items)`: update the active bill if
one exists (updateDoc by its id), otherwise addDoc a fresh active bill. -/
def addToTableBill (db : DB) (userId tableNumber : String)
    (items : List OrderItem) (now : Timestamp) : DB :=
  match getTableBill db userId tableNumber with
  | some (billId, b) =>
      { db with
          tableBills :=
            db.tableBills.map
              (fun p => if p.1 = billId then (p.1, mergedBill b items now) else p) }
  | none =>
      { db with
          tableBills :=
            db.tableBills ++ [(freshId db, freshBill userId tableNumber items now)]
          nextId := db.nextId + 1 }

/-! ## OrderLedger: the approval workflow -/

/-- The approved order derived from the pending order by
`approvePendingOrder`: `{ ...pendingOrder, status: 'approved', paymentStatus:
'pending', timestamp: Timestamp.now() }` at the declared type
`Omit<Order, 'id'>`. -/
def approvedOrderDoc (pendingOrder : PendingOrder) (now : Timestamp) : OrderDoc :=
  { userId := pendingOrder.userId
    tableNumber := pendingOrder.tableNumber
    items := pendingOrder.items
    totalAmount := pendingOrder.totalAmount
    status := "approved"
    paymentStatus := "pending"
    timestamp := now }

/-- `approvePendingOrder(pendingOrderId, pendingOrder)`: create the approved
order, split the pending order's items by department against the owner's menu,
addDoc a department record for each non-empty part, merge the items into the
table bill, delete the pending record, and return the new order's id. -/
def approvePendingOrder (db : DB) (pendingOrderId : String)
    (pendingOrder : PendingOrder) (now : Timestamp) : String × DB :=
  let step1 := addOrder db (approvedOrderDoc pendingOrder now) now
  let orderId := step1.1
  let db1 := step1.2
  let menuItems := getMenuItems db1 pendingOrder.userId
  let split := splitItemsByDepartment pendingOrder.items menuItems
  let db2 :=
    if split.kitchenItems.length > 0 then
      sendToDepartment db1 orderId pendingOrder.userId split.kitchenItems
        Department.kitchen now
    else db1
  let db3 :=
    if split.barItems.length > 0 then
      sendToDepartment db2 orderId pendingOrder.userId split.barItems
        Department.bar now
    else db2
  let db4 := addToTableBill db3 pendingOrder.userId pendingOrder.tableNumber
    pendingOrder.items now
  let db5 :=
    { db4 with
        pendingOrders := db4.pendingOrders.filter (fun p => p.1 ≠ pendingOrderId) }
  (orderId, db5)

/-! ## OrderLedger: department order tracking -/

/-- Ordering used by the Firestore query `orderBy('createdAt', 'desc')`:
newer documents first. -/
def byCreatedAtDesc (a b : String × DeptOrderDoc) : Prop :=
  b.2.createdAt ≤ a.2.createdAt

instance : DecidableRel byCreatedAtDesc := fun a b => by
  unfold byCreatedAtDesc; infer_instance

instance : IsTotal (String × DeptOrderDoc) byCreatedAtDesc :=
  ⟨fun a b => Nat.le_total b.2.createdAt a.2.createdAt⟩

instance : IsTrans (String × DeptOrderDoc) byCreatedAtDesc :=
  ⟨fun _ _ _ hab hbc => Nat.le_trans hbc hab⟩

/-- The mapping step of `getKitchenOrders` / `getBarOrders`: `{ id: doc.id,
...doc.data(), timestamp: doc.data().createdAt }` — the unified timestamp
field is a copy of `createdAt`. -/
def readDeptOrder (p : String × DeptOrderDoc) : DeptOrderView :=
  { id := p.1
    orderId := p.2.orderId
    userId := p.2.userId
    items := p.2.items
    status := p.2.status
    createdAt := p.2.createdAt
    completedAt := p.2.completedAt
    department := p.2.department
    timestamp := p.2.createdAt }

/-- Shared body of the two department readers: query `where('userId', '==',
userId)` with `orderBy('createdAt', 'desc')` (a stable sort by descending
creation time), then map each document as `readDeptOrder`. -/
def getDeptOrdersFrom (docs : List (String × DeptOrderDoc)) (userId : String) :
    List DeptOrderView :=
  (List.insertionSort byCreatedAtDesc
      (docs.filter (fun p => p.2.userId = userId))).map readDeptOrder

/-- `getKitchenOrders(userId)`. -/
def getKitchenOrders (db : DB) (userId : String) : List DeptOrderView :=
  getDeptOrdersFrom db.kitchenOrders userId

/-- `getBarOrders(userId)`. -/
def getBarOrders (db : DB) (userId : String) : List DeptOrderView :=
  getDeptOrdersFrom db.barOrders userId

/-- The two department readers, indexed by department (the spec's
`listDepartmentOrders(ownerId, department)`). -/
def listDepartmentOrders (db : DB) (userId : String) :
    Department → List DeptOrderView
  | Department.kitchen => getKitchenOrders db userId
  | Department.bar => getBarOrders db userId

/-- The `${department}Orders` collection of the store. -/
def deptCollection (db : DB) : Department → List (String × DeptOrderDoc)
  | Department.kitchen => db.kitchenOrders
  | Department.bar => db.barOrders

/-- `markOrderAsComplete(orderId, department)`: find the first department
record with the given orderId (`limit(1)`); if present set status completed
and stamp completion time, otherwise do nothing. -/
def markOrderAsComplete (db : DB) (orderId : String) (department : Department)
    (now : Timestamp) : DB :=
  match (deptCollection db department).find? (fun p => p.2.orderId = orderId) with
  | none => db
  | some (docId, _) =>
      let upd : List (String × DeptOrderDoc) → List (String × DeptOrderDoc) :=
        fun docs =>
          docs.map
            (fun p =>
              if p.1 = docId then
                (p.1, { p.2 with status := "completed", completedAt := some now })
              else p)
      match department with
      | Department.kitchen => { db with kitchenOrders := upd db.kitchenOrders }
      | Department.bar => { db with barOrders := upd db.barOrders }

/-! ## OrderLedger: order retrieval -/

/-- Ordering used by `orderBy('timestamp', 'desc')` on the `orders`
collection. -/
def byTimestampDesc (a b : String × OrderDoc) : Prop :=
  b.2.timestamp ≤ a.2.timestamp

instance : DecidableRel byTimestampDesc := fun a b => by
  unfold byTimestampDesc; infer_instance

instance : IsTotal (String × OrderDoc) byTimestampDesc :=
  ⟨fun a b => Nat.le_total b.2.timestamp a.2.timestamp⟩

instance : IsTrans (String × OrderDoc) byTimestampDesc :=
  ⟨fun _ _ _ hab hbc => Nat.le_trans hbc hab⟩

/-- The mapping step of `getOrders`: `{ id: doc.id, ...doc.data() }`. -/
def readOrder (p : String × OrderDoc) : Order :=
  { id := p.1
    userId := p.2.userId
    tableNumber := p.2.tableNumber
    items := p.2.items
    totalAmount := p.2.totalAmount
    status := p.2.status
    paymentStatus := p.2.paymentStatus
    timestamp := p.2.timestamp }

/-- Body of `getOrders` over the fetched `orders` collection: query by owner,
newest first. -/
def getOrdersFrom (docs : List (String × OrderDoc)) (userId : String) :
    List Order :=
  (List.insertionSort byTimestampDesc
      (docs.filter (fun p => p.2.userId = userId))).map readOrder

/-- `getOrders(userId)`. -/
def getOrders (db : DB) (userId : String) : List Order :=
  getOrdersFrom db.orders userId

/-- `getOrders` against a fallible fetch of the collection: the `catch` logs
and re-raises the error unchanged. -/
def getOrdersFetched (res : Except String (List (String × OrderDoc)))
    (userId : String) : Except String (List Order) :=
  res.map (fun docs => getOrdersFrom docs userId)

/-! ## OrderLedger: menu statistics -/

/-- One `forEach` step over an order item in the `itemOrderCounts`
accumulation: on first sight of an item id, an entry is created (name from the
menu lookup, falling back to the denormalized item name) with counter 0 and
immediately increased by the quantity; on later sights the existing entry's
counter is increased in place. -/
def bumpItemCount (counts : List PopularItem) (itemId name : String)
    (qty : Nat) : List PopularItem :=
  match counts with
  | [] => [{ id := itemId, name := name, orders := qty }]
  | e :: rest =>
      if e.id = itemId then { e with orders := e.orders + qty } :: rest
      else e :: bumpItemCount rest itemId name qty

/-- The `itemOrderCounts` record of `getMenuStats`, as an association list in
key-insertion order (its JS object keys are non-numeric strings, so
`Object.entries` yields insertion order). -/
def itemOrderCounts (orders : List Order) (menuItems : List MenuItem) :
    List PopularItem :=
  orders.foldl
    (fun acc order =>
      order.items.foldl
        (fun acc item =>
          let name :=
            match menuItems.find? (fun mi => mi.id = item.id) with
            | some mi => mi.name
            | none => item.name
          bumpItemCount acc item.id name item.quantity)
        acc)
    []

/-- Comparator `(a, b) => b.orders - a.orders`: descending by count (stable). -/
def byOrdersDesc (a b : PopularItem) : Prop := b.orders ≤ a.orders

instance : DecidableRel byOrdersDesc := fun a b => by
  unfold byOrdersDesc; infer_instance

/-- Lexicographic comparison of character lists by code point, the model of
`String.prototype.localeCompare` on the all-ASCII `YYYY-MM` month keys. -/
def charListLe : List Char → List Char → Bool
  | [], _ => true
  | _ :: _, [] => false
  | a :: as, b :: bs =>
      if a.toNat < b.toNat then true
      else if b.toNat < a.toNat then false
      else charListLe as bs

/-- String comparison via `charListLe` on the underlying character lists. -/
def strLe (a b : String) : Bool := charListLe a.data b.data

/-- Calendar decomposition of an instant, standing for
`new Date(order.timestamp).getFullYear()`.  The embedding counts instants in
calendar months (year = t / 12), which fixes only the part of the platform
Date conversion the aggregation depends on: each instant determines one
calendar year/month pair. -/
def tsYear (t : Timestamp) : Nat := t / 12

/-- Calendar month of an instant, 1-based, standing for
`new Date(order.timestamp).getMonth() + 1`. -/
def tsMonth (t : Timestamp) : Nat := t % 12 + 1

/-- `String(n).padStart(2, '0')`. -/
def pad2 (n : Nat) : String :=
  let s := toString n
  if s.length < 2 then "0" ++ s else s

/-- The `YYYY-MM` month key of an order timestamp:
`date.getFullYear() + '-' + String(date.getMonth() + 1).padStart(2, '0')`. -/
def monthKeyOf (t : Timestamp) : String :=
  toString (tsYear t) ++ "-" ++ pad2 (tsMonth t)

/-- One `forEach` step of the `monthlyData` accumulation:
`monthlyData[monthKey] = (monthlyData[monthKey] || 0) + order.totalAmount`,
on the object modelled as an association list in key-insertion order. -/
def bumpMonth (data : List MonthRevenue) (key : String) (amount : ℚ) :
    List MonthRevenue :=
  match data with
  | [] => [{ month := key, revenue := amount }]
  | e :: rest =>
      if e.month = key then { e with revenue := e.revenue + amount } :: rest
      else e :: bumpMonth rest key amount

/-- The `monthlyData` record of `calculateMonthlyRevenue`. -/
def monthlyData (orders : List Order) : List MonthRevenue :=
  orders.foldl
    (fun acc order => bumpMonth acc (monthKeyOf order.timestamp) order.totalAmount)
    []

/-- Comparator `(a, b) => a.month.localeCompare(b.month)`: ascending by month
key (stable). -/
def byMonthAsc (a b : MonthRevenue) : Prop := strLe a.month b.month = true

instance : DecidableRel byMonthAsc := fun a b => by
  unfold byMonthAsc; infer_instance

/-- `calculateMonthlyRevenue(orders)`: aggregate order totals per month key,
sort the entries ascending by key, and keep the last six (`slice(-6)`). -/
def calculateMonthlyRevenue (orders : List Order) : List MonthRevenue :=
  let sortedEntries := List.insertionSort byMonthAsc (monthlyData orders)
  sortedEntries.drop (sortedEntries.length - 6)

/-- The popular-items list of `getMenuStats`: entries sorted descending by
count, first five kept. -/
def popularItemsOf (orders : List Order) (menuItems : List MenuItem) :
    List PopularItem :=
  (List.insertionSort byOrdersDesc (itemOrderCounts orders menuItems)).take 5

/-- The stats computation of `getMenuStats` on successfully fetched orders and
menu items. -/
def computeStats (orders : List Order) (menuItems : List MenuItem) : MenuStats :=
  { totalOrders := orders.length
    totalRevenue := orders.foldl (fun sum order => sum + order.totalAmount) 0
    totalViews := menuItems.foldl (fun sum item => sum + item.views.getD 0) 0
    popularItems := popularItemsOf orders menuItems
    recentOrders := orders.take 10
    monthlyRevenue := calculateMonthlyRevenue orders }

/-- The all-zero/empty stats value returned from the `catch` branch. -/
def emptyMenuStats : MenuStats :=
  { totalOrders := 0
    totalRevenue := 0
    totalViews := 0
    popularItems := []
    recentOrders := []
    monthlyRevenue := [] }

/-- `getMenuStats(userId)`: `Promise.all` of the two fallible reads inside
`try/catch`; any failure yields the zeroed stats instead of propagating. -/
def getMenuStats (ordersRes : Except String (List Order))
    (menuItemsRes : Except String (List MenuItem)) : MenuStats :=
  match ordersRes, menuItemsRes with
  | Except.ok orders, Except.ok menuItems => computeStats orders menuItems
  | _, _ => emptyMenuStats

/-! ## NotificationDispatcher (telegram.ts)

The chat-bot HTTP API is the out-of-scope delivery sink.  A call attempt is a
`Payload`; the network's behaviour is an oracle `respond : Payload → Bool`
(`true` for a delivered message with `ok = true`, `false` both for an `ok =
false` response and for a thrown error that the service's `catch` turns into
`false`).  Each operation threads the list of payloads handed to the API so
far, so "no outbound payload" is visible as an unchanged list. -/

/-- An inline keyboard button: caption plus opaque callback token. -/
structure Button where
  text : String
  callback_data : String
deriving DecidableEq, Repr

/-- One payload handed to the messaging API. -/
inductive Payload where
  | message (text : String)
  | photo (photoFile : String) (caption : String)
  | messageWithButtons (text : String) (buttons : List (List Button))
deriving DecidableEq, Repr

/-- `sendMessage(message)`: post a plain text payload, report the API's
boolean. -/
def sendMessage (respond : Payload → Bool) (sent : List Payload)
    (message : String) : Bool × List Payload :=
  (respond (Payload.message message), sent ++ [Payload.message message])

/-- `sendPhoto(photo, caption)`: post an image payload with caption, report
the API's boolean. -/
def sendPhoto (respond : Payload → Bool) (sent : List Payload)
    (photoFile caption : String) : Bool × List Payload :=
  (respond (Payload.photo photoFile caption),
    sent ++ [Payload.photo photoFile caption])

/-- `sendMessageWithButtons(chatId, message, buttons)`: post a text payload
with an inline keyboard, report the API's boolean. -/
def sendMessageWithButtons (respond : Payload → Bool) (sent : List Payload)
    (message : String) (buttons : List (List Button)) : Bool × List Payload :=
  (respond (Payload.messageWithButtons message buttons),
    sent ++ [Payload.messageWithButtons message buttons])

/-- Rendering of a price (`$x.toFixed(2)` in the source).  The exact decimal
rendering of the float is abstracted; no claim inspects the digits. -/
def fmtAmount (q : ℚ) : String := toString q

/-- Rendering of a timestamp (`new Date(t).toLocaleString()`); the locale
rendering is abstracted, no claim inspects it. -/
def localeTimeString (t : Timestamp) : String := toString t

/-- The string `'kitchen'` / `'bar'` used inside callback tokens and
collection names. -/
def departmentTag : Department → String
  | Department.kitchen => "kitchen"
  | Department.bar => "bar"

/-- Itemized line list `• name xqty` used by `sendOrderToDepartment`. -/
def deptItemLines (items : List OrderItem) : String :=
  String.intercalate "\n"
    (items.map (fun item => "• " ++ item.name ++ " x" ++ toString item.quantity))

/-- The department banner message of `sendOrderToDepartment`. -/
def deptOrderMessage (order : Order) (department : Department)
    (items : List OrderItem) : String :=
  let emoji := if department = Department.kitchen then "👨‍🍳" else "🍹"
  let departmentName :=
    if department = Department.kitchen then "Kitchen" else "Bar"
  emoji ++ " <b>" ++ departmentName ++ " Order - Table " ++ order.tableNumber ++
    "</b>\n\n" ++ deptItemLines items ++
    "\n\n🕐 <b>Time:</b> " ++ localeTimeString order.timestamp ++
    "\n📋 <b>Order ID:</b> " ++ order.id.take 8 ++
    "\n\n<b>Status: APPROVED - Start Preparation</b>"

/-- The ready/delay controls of `sendOrderToDepartment`, carrying
`(department, orderId)` in their tokens. -/
def deptOrderButtons (department : Department) (orderId : String) :
    List (List Button) :=
  [[{ text := "✅ Ready"
      callback_data := "ready_" ++ departmentTag department ++ "_" ++ orderId },
    { text := "⏰ Delay"
      callback_data := "delay_" ++ departmentTag department ++ "_" ++ orderId }]]

/-- `sendOrderToDepartment(order, department)`: filter the order's items by
the department field carried on each item itself; when nothing matches,
return success without posting anything; otherwise post the department banner
with ready/delay controls. -/
def sendOrderToDepartment (respond : Payload → Bool) (sent : List Payload)
    (order : Order) (department : Department) : Bool × List Payload :=
  let departmentItems :=
    order.items.filter (fun item => item.department = some department)
  if departmentItems.length = 0 then (true, sent)
  else
    sendMessageWithButtons respond sent
      (deptOrderMessage order department departmentItems)
      (deptOrderButtons department order.id)

/-- Itemized line list `• name xqty - $total` used by the payment caption. -/
def pricedItemLines (items : List OrderItem) : String :=
  String.intercalate "\n"
    (items.map (fun item =>
      "• " ++ item.name ++ " x" ++ toString item.quantity ++ " - $" ++
        fmtAmount item.total))

/-- `paymentMethod === 'bank_transfer' ? 'Bank Transfer' : 'Mobile Money'`. -/
def paymentMethodLabel (method : String) : String :=
  if method = "bank_transfer" then "Bank Transfer" else "Mobile Money"

/-- The caption attached to the payment screenshot by
`sendPaymentConfirmation`. -/
def paymentCaption (order : Order) (paymentMethod : String) : String :=
  "💳 <b>Payment Confirmation - Table " ++ order.tableNumber ++ "</b>\n\n" ++
    pricedItemLines order.items ++
    "\n\n💰 <b>Total: $" ++ fmtAmount order.totalAmount ++ "</b>" ++
    "\n💳 <b>Method:</b> " ++ paymentMethodLabel paymentMethod ++
    "\n🕐 <b>Time:</b> " ++ localeTimeString order.timestamp ++
    "\n\n📸 <b>Payment Screenshot Attached</b>"

/-- The follow-up verification message of `sendPaymentConfirmation`. -/
def paymentVerificationMessage (order : Order) (paymentMethod : String) :
    String :=
  "💳 <b>Payment Verification Needed - Table " ++ order.tableNumber ++
    "</b>\n\n💰 <b>Amount: $" ++ fmtAmount order.totalAmount ++ "</b>" ++
    "\n💳 <b>Method:</b> " ++ paymentMethodLabel paymentMethod ++
    "\n🕐 <b>Time:</b> " ++ localeTimeString order.timestamp

/-- The accept/reject payment controls, carrying the order identifier. -/
def paymentButtons (orderId : String) : List (List Button) :=
  [[{ text := "✅ Accept Payment", callback_data := "approve_payment_" ++ orderId },
    { text := "❌ Reject Payment", callback_data := "reject_payment_" ++ orderId }]]

/-- `sendPaymentConfirmation(order, paymentMethod, screenshot)`: post the
screenshot with its summary caption, then — its result deliberately unused —
post the verification message with accept/reject controls and report that
second result. -/
def sendPaymentConfirmation (respond : Payload → Bool) (sent : List Payload)
    (order : Order) (paymentMethod : String) (screenshot : String) :
    Bool × List Payload :=
  let step1 := sendPhoto respond sent screenshot (paymentCaption order paymentMethod)
  sendMessageWithButtons respond step1.2
    (paymentVerificationMessage order paymentMethod)
    (paymentButtons order.id)

/-! ## Shared proof helpers and witness fixtures -/

/-- The store with every collection empty. -/
def emptyDB : DB :=
  { menuItems := []
    orders := []
    pendingOrders := []
    kitchenOrders := []
    barOrders := []
    tableBills := []
    nextId := 0 }

/-- A network oracle that fails every delivery. -/
def alwaysFail : Payload → Bool := fun _ => false

/-- A network oracle that accepts every delivery. -/
def alwaysOk : Payload → Bool := fun _ => true

/-- An early return of `sendOrderToDepartment`: when nothing matches the
department filter, the call succeeds without posting. -/
theorem sendOrderToDepartment_of_no_matching_items (respond : Payload → Bool)
    (sent : List Payload) (order : Order) (department : Department)
    (h : order.items.filter (fun item => item.department = some department) = []) :
    sendOrderToDepartment respond sent order department = (true, sent) := by
  simp [sendOrderToDepartment, h]

/-- C4: for every order and department whose filtered item set is empty,
`sendOrderToDepartment` returns success (`true`) and hands no payload to the
messaging API. -/
theorem sendOrderToDepartment_empty_filter_success (respond : Payload → Bool)
    (sent : List Payload) (order : Order) (department : Department)
    (h : order.items.filter (fun item => item.department = some department) = []) :
    sendOrderToDepartment respond sent order department = (true, sent) :=
  sendOrderToDepartment_of_no_matching_items respond sent order department h

/-- Order fixture for C4: items tagged for the kitchen, queried for the bar. -/
def wOrderC4 : Order :=
  { id := "o1"
    userId := "u1"
    tableNumber := "5"
    items := [{ id := "i1", name := "Pasta", quantity := 2, total := 12,
                department := some Department.kitchen }]
    totalAmount := 12
    status := "approved"
    paymentStatus := "pending"
    timestamp := 10 }

/-- Witness for C4 at a concrete order with no bar-tagged item, under a
failing network: success with no outbound payload. -/
theorem sendOrderToDepartment_empty_filter_success_witness :
    sendOrderToDepartment alwaysFail [] wOrderC4 Department.bar = (true, []) :=
  sendOrderToDepartment_empty_filter_success alwaysFail [] wOrderC4
    Department.bar (by decide)

/-- C5: `sendOrderToDepartment` reads the department from the order item
itself, so for every order whose items all lack the department field (the
shape the OrderLedger produces), the call returns `true` and hands no payload
to the API, for either department. -/
theorem sendOrderToDepartment_no_item_department_noop (respond : Payload → Bool)
    (sent : List Payload) (order : Order)
    (h : ∀ item ∈ order.items, item.department = none) (department : Department) :
    sendOrderToDepartment respond sent order department = (true, sent) := by
  apply sendOrderToDepartment_of_no_matching_items
  rw [List.filter_eq_nil_iff]
  intro item hmem
  simp [h item hmem]

/-- Order fixture for C5: no item carries a department field. -/
def wOrderC5 : Order :=
  { id := "o2"
    userId := "u1"
    tableNumber := "3"
    items := [{ id := "i1", name := "Pasta", quantity := 1, total := 12,
                department := none },
              { id := "i2", name := "Cola", quantity := 2, total := 4,
                department := none }]
    totalAmount := 16
    status := "approved"
    paymentStatus := "pending"
    timestamp := 11 }

/-- Witness for C5 at a concrete ledger-shaped order, for both departments. -/
theorem sendOrderToDepartment_no_item_department_noop_witness :
    sendOrderToDepartment alwaysOk [] wOrderC5 Department.kitchen = (true, []) ∧
    sendOrderToDepartment alwaysOk [] wOrderC5 Department.bar = (true, []) :=
  ⟨sendOrderToDepartment_no_item_department_noop alwaysOk [] wOrderC5
      (by decide) Department.kitchen,
    sendOrderToDepartment_no_item_department_noop alwaysOk [] wOrderC5
      (by decide) Department.bar⟩

/-- C6: `sendPaymentConfirmation` hands exactly two payloads to the API, in
order — the screenshot with its summary caption, then the verification text
with accept/reject controls carrying the order id — and its returned boolean
is the network's answer to the second payload alone, whatever the network
answered to the screenshot. -/
theorem sendPaymentConfirmation_two_step (respond : Payload → Bool)
    (sent : List Payload) (order : Order) (paymentMethod screenshot : String) :
    (sendPaymentConfirmation respond sent order paymentMethod screenshot).2
        = sent ++
            [Payload.photo screenshot (paymentCaption order paymentMethod),
              Payload.messageWithButtons
                (paymentVerificationMessage order paymentMethod)
                (paymentButtons order.id)] ∧
    (sendPaymentConfirmation respond sent order paymentMethod screenshot).1
        = respond
            (Payload.messageWithButtons
              (paymentVerificationMessage order paymentMethod)
              (paymentButtons order.id)) ∧
    paymentButtons order.id
        = [[{ text := "✅ Accept Payment",
              callback_data := "approve_payment_" ++ order.id },
            { text := "❌ Reject Payment",
              callback_data := "reject_payment_" ++ order.id }]] := by
  refine ⟨?_, rfl, rfl⟩
  simp [sendPaymentConfirmation, sendPhoto, sendMessageWithButtons]

/-- C7: reading menu items resolves each returned item's department to the
stored one, defaulting to kitchen when the stored document has none; creating
a menu item appends one document whose department is the input's, defaulted to
kitchen when the input has none. -/
theorem menu_department_defaults (db : DB) (userId : String)
    (input : MenuItemInput) (now : Timestamp) :
    ((getMenuItems db userId).map (fun mi => (mi.id, mi.department))
        = (db.menuItems.filter (fun p => p.2.userId = userId)).map
            (fun p => (p.1, p.2.department.getD Department.kitchen))) ∧
    ((addMenuItem db input now).2.menuItems
        = db.menuItems ++ [((addMenuItem db input now).1, storedMenuItemDoc input now)]) ∧
    ((storedMenuItemDoc input now).department
        = some (input.department.getD Department.kitchen)) ∧
    (input.department = none →
      (storedMenuItemDoc input now).department = some Department.kitchen) := by
  refine ⟨?_, rfl, rfl, ?_⟩
  · simp [getMenuItems, getMenuItemsFrom, readMenuItem]
  · intro h
    simp [storedMenuItemDoc, h]

/-- Input fixture for C7: a menu item submitted without a department. -/
def wInputC7 : MenuItemInput :=
  { userId := "u1", name := "Tea", price := 3, views := none, department := none }

/-- Store fixture for C7: one stored menu document without a department. -/
def wDBC7 : DB :=
  { emptyDB with
      menuItems := [("m1",
        { userId := "u1", name := "Soup", price := 7, views := some 4,
          department := none, created_at := some 1 })] }

/-- Witness for C7: the department-less stored document is listed as kitchen,
and the department-less input is persisted as kitchen. -/
theorem menu_department_defaults_witness :
    ((getMenuItems wDBC7 "u1").map (fun mi => (mi.id, mi.department))
        = (wDBC7.menuItems.filter (fun p => p.2.userId = "u1")).map
            (fun p => (p.1, p.2.department.getD Department.kitchen))) ∧
    (storedMenuItemDoc wInputC7 5).department = some Department.kitchen :=
  ⟨(menu_department_defaults wDBC7 "u1" wInputC7 5).1,
    (menu_department_defaults wDBC7 "u1" wInputC7 5).2.2.2 rfl⟩

/-! ## C2: table-bill arithmetic -/

/-- C2: merging items with incremental subtotal S2 into an existing active
bill updates it in place to subtotal S1 + S2 and tax T1 + S2·0.15 — the tax
increment is computed from the incremental subtotal only — and, whenever the
existing bill satisfied total = subtotal + tax, so does the updated one; with
no active bill, a fresh active bill is appended with subtotal S2, tax S2·0.15
and total = subtotal + tax. -/
theorem addToTableBill_tax_accumulation (db : DB) (userId tableNumber : String)
    (items : List OrderItem) (now : Timestamp) :
    (∀ billId b, getTableBill db userId tableNumber = some (billId, b) →
      ((addToTableBill db userId tableNumber items now).tableBills
          = db.tableBills.map
              (fun p => if p.1 = billId then (p.1, mergedBill b items now) else p)) ∧
      (mergedBill b items now).subtotal = b.subtotal + newSubtotal items ∧
      (mergedBill b items now).tax = b.tax + newSubtotal items * 0.15 ∧
      (b.total = b.subtotal + b.tax →
        (mergedBill b items now).total
          = (mergedBill b items now).subtotal + (mergedBill b items now).tax)) ∧
    (getTableBill db userId tableNumber = none →
      ((addToTableBill db userId tableNumber items now).tableBills
          = db.tableBills ++ [(freshId db, freshBill userId tableNumber items now)]) ∧
      (freshBill userId tableNumber items now).subtotal = newSubtotal items ∧
      (freshBill userId tableNumber items now).tax = newSubtotal items * 0.15 ∧
      (freshBill userId tableNumber items now).total
          = (freshBill userId tableNumber items now).subtotal
              + (freshBill userId tableNumber items now).tax ∧
      (freshBill userId tableNumber items now).status = "active") := by
  constructor
  · intro billId b h
    refine ⟨?_, rfl, rfl, ?_⟩
    · unfold addToTableBill
      rw [h]
    · intro hinv
      simp only [mergedBill, hinv]
      ring
  · intro h
    refine ⟨?_, rfl, rfl, rfl, rfl⟩
    unfold addToTableBill
    rw [h]

/-- Bill fixture for C2: an active bill with subtotal 10, tax 0, total 10. -/
def wBillC2 : TableBillDoc :=
  { userId := "u1", tableNumber := "t1", items := [],
    subtotal := 10, tax := 0, total := 10,
    status := "active", createdAt := 1, updatedAt := 1 }

/-- Store fixture for C2. -/
def wDBC2 : DB := { emptyDB with tableBills := [("b1", wBillC2)] }

/-- Items fixture for C2: one merged item with line total 2. -/
def wItemsC2 : List OrderItem :=
  [{ id := "i1", name := "Cake", quantity := 1, total := 2, department := none }]

/-- Witness for C2 at the concrete active bill. -/
theorem addToTableBill_tax_accumulation_witness :
    ((addToTableBill wDBC2 "u1" "t1" wItemsC2 7).tableBills
        = wDBC2.tableBills.map
            (fun p => if p.1 = "b1" then (p.1, mergedBill wBillC2 wItemsC2 7) else p)) ∧
    (mergedBill wBillC2 wItemsC2 7).subtotal = wBillC2.subtotal + newSubtotal wItemsC2 ∧
    (mergedBill wBillC2 wItemsC2 7).tax = wBillC2.tax + newSubtotal wItemsC2 * 0.15 ∧
    (mergedBill wBillC2 wItemsC2 7).total
        = (mergedBill wBillC2 wItemsC2 7).subtotal + (mergedBill wBillC2 wItemsC2 7).tax := by
  have h := (addToTableBill_tax_accumulation wDBC2 "u1" "t1" wItemsC2 7).1 "b1" wBillC2 rfl
  exact ⟨h.1, h.2.1, h.2.2.1, h.2.2.2 (by norm_num [wBillC2])⟩

/-! ## C3: the department partition -/

/-- Whether the lookup step of `splitItemsByDepartment` routes an item to the
bar: true exactly when the first menu item carrying the item's id exists and
is tagged bar; an absent id or a non-bar tag routes to the kitchen. -/
def barTagged (menuItems : List MenuItem) (item : OrderItem) : Bool :=
  match menuItems.find? (fun mi => mi.id = item.id) with
  | some mi => decide (mi.department = Department.bar)
  | none => false

/-- Accumulator-generalised unrolling of the `forEach` in
`splitItemsByDepartment`. -/
theorem splitItemsByDepartment_go (menuItems : List MenuItem) :
    ∀ (items : List OrderItem) (acc : SplitItems),
      items.foldl
        (fun acc item =>
          match menuItems.find? (fun mi => mi.id = item.id) with
          | some mi =>
              if mi.department = Department.bar then
                { acc with barItems := acc.barItems ++ [item] }
              else
                { acc with kitchenItems := acc.kitchenItems ++ [item] }
          | none => { acc with kitchenItems := acc.kitchenItems ++ [item] })
        acc
      = { kitchenItems :=
            acc.kitchenItems ++ items.filter (fun i => !barTagged menuItems i)
          barItems :=
            acc.barItems ++ items.filter (fun i => barTagged menuItems i) } := by
  intro items
  induction items with
  | nil => intro acc; simp
  | cons item rest ih =>
      intro acc
      rw [List.foldl_cons, ih]
      cases hfind : menuItems.find? (fun mi => mi.id = item.id) with
      | none => simp [barTagged, hfind, List.filter_cons]
      | some mi =>
          by_cases hdep : mi.department = Department.bar <;>
            simp [barTagged, hfind, hdep, List.filter_cons]

/-- Count of an element in the two halves of a boolean filter partition. -/
theorem count_filter_partition {α : Type} [DecidableEq α] (l : List α)
    (p : α → Bool) (a : α) :
    (l.filter p).count a + (l.filter (fun x => !p x)).count a = l.count a := by
  induction l with
  | nil => simp
  | cons x xs ih =>
      by_cases h : p x <;> by_cases hx : x = a <;>
        simp_all [List.count_cons, List.filter_cons]

/-- C3: `splitItemsByDepartment` sends to the bar exactly the items whose
first menu match is tagged bar, to the kitchen exactly the remaining items
(including every item whose id is absent from the menu), and each item's
occurrences land in exactly one of the two subsets with none dropped or
duplicated. -/
theorem splitItemsByDepartment_partition (items : List OrderItem)
    (menuItems : List MenuItem) :
    (splitItemsByDepartment items menuItems).kitchenItems
        = items.filter (fun i => !barTagged menuItems i) ∧
    (splitItemsByDepartment items menuItems).barItems
        = items.filter (fun i => barTagged menuItems i) ∧
    ∀ item : OrderItem,
      (splitItemsByDepartment items menuItems).kitchenItems.count item
          + (splitItemsByDepartment items menuItems).barItems.count item
        = items.count item := by
  have h := splitItemsByDepartment_go menuItems items
    { kitchenItems := [], barItems := [] }
  unfold splitItemsByDepartment
  rw [h]
  refine ⟨by simp, by simp, fun item => ?_⟩
  simp only [List.nil_append]
  rw [Nat.add_comm]
  exact count_filter_partition items (fun i => barTagged menuItems i) item

/-! ## C1: the approval workflow -/

theorem addToTableBill_kitchenOrders (db : DB) (userId tableNumber : String)
    (items : List OrderItem) (now : Timestamp) :
    (addToTableBill db userId tableNumber items now).kitchenOrders
      = db.kitchenOrders := by
  unfold addToTableBill
  cases getTableBill db userId tableNumber <;> rfl

theorem addToTableBill_barOrders (db : DB) (userId tableNumber : String)
    (items : List OrderItem) (now : Timestamp) :
    (addToTableBill db userId tableNumber items now).barOrders = db.barOrders := by
  unfold addToTableBill
  cases getTableBill db userId tableNumber <;> rfl

theorem addToTableBill_pendingOrders (db : DB) (userId tableNumber : String)
    (items : List OrderItem) (now : Timestamp) :
    (addToTableBill db userId tableNumber items now).pendingOrders
      = db.pendingOrders := by
  unfold addToTableBill
  cases getTableBill db userId tableNumber <;> rfl

theorem addToTableBill_orders (db : DB) (userId tableNumber : String)
    (items : List OrderItem) (now : Timestamp) :
    (addToTableBill db userId tableNumber items now).orders = db.orders := by
  unfold addToTableBill
  cases getTableBill db userId tableNumber <;> rfl

theorem sendToDepartment_orders (db : DB) (orderId userId : String)
    (items : List OrderItem) (department : Department) (now : Timestamp) :
    (sendToDepartment db orderId userId items department now).orders
      = db.orders := by
  cases department <;> rfl

theorem sendToDepartment_pendingOrders (db : DB) (orderId userId : String)
    (items : List OrderItem) (department : Department) (now : Timestamp) :
    (sendToDepartment db orderId userId items department now).pendingOrders
      = db.pendingOrders := by
  cases department <;> rfl

theorem sendToDepartment_kitchen_barOrders (db : DB) (orderId userId : String)
    (items : List OrderItem) (now : Timestamp) :
    (sendToDepartment db orderId userId items Department.kitchen now).barOrders
      = db.barOrders := rfl

theorem sendToDepartment_bar_kitchenOrders (db : DB) (orderId userId : String)
    (items : List OrderItem) (now : Timestamp) :
    (sendToDepartment db orderId userId items Department.bar now).kitchenOrders
      = db.kitchenOrders := rfl

/-- Deleting a document by id leaves no entry with that id behind. -/
theorem not_mem_map_fst_filter_ne {α : Type} (l : List (String × α))
    (pid : String) :
    pid ∉ (l.filter (fun p => p.1 ≠ pid)).map Prod.fst := by
  intro h
  obtain ⟨p, hp, hfst⟩ := List.mem_map.mp h
  have := (List.mem_filter.mp hp).2
  simp [hfst] at this

/-- Unfolding of the approval workflow: the generated order id is `freshId db`
and the menu used by the split is read from the store as it was before the
order insert (the insert touches only the `orders` collection). -/
theorem approvePendingOrder_unfold (db : DB) (pid : String) (po : PendingOrder)
    (now : Timestamp) :
    approvePendingOrder db pid po now =
      (let orderId := freshId db
       let db1 := (addOrder db (approvedOrderDoc po now) now).2
       let split := splitItemsByDepartment po.items (getMenuItems db po.userId)
       let db2 :=
         if split.kitchenItems.length > 0 then
           sendToDepartment db1 orderId po.userId split.kitchenItems
             Department.kitchen now
         else db1
       let db3 :=
         if split.barItems.length > 0 then
           sendToDepartment db2 orderId po.userId split.barItems
             Department.bar now
         else db2
       let db4 := addToTableBill db3 po.userId po.tableNumber po.items now
       (orderId,
         { db4 with
             pendingOrders := db4.pendingOrders.filter (fun p => p.1 ≠ pid) })) :=
  rfl

/-- C1: approving a pending order appends exactly one approved order under the
returned id; appends exactly one kitchen department record — referencing that
order id and holding exactly the kitchen part of the split — when the kitchen
part is non-empty and none when it is empty; symmetrically for the bar; and
leaves no pending-order record under the approved id. -/
theorem approvePendingOrder_department_records (db : DB) (pid : String)
    (po : PendingOrder) (now : Timestamp) :
    ((approvePendingOrder db pid po now).2.orders
        = db.orders
            ++ [((approvePendingOrder db pid po now).1, approvedOrderDoc po now)] ∧
      (approvedOrderDoc po now).status = "approved" ∧
      (approvedOrderDoc po now).paymentStatus = "pending" ∧
      (approvedOrderDoc po now).items = po.items) ∧
    ((splitItemsByDepartment po.items (getMenuItems db po.userId)).kitchenItems ≠ [] →
      ∃ kid, (approvePendingOrder db pid po now).2.kitchenOrders
        = db.kitchenOrders
            ++ [(kid, deptOrderDoc (approvePendingOrder db pid po now).1 po.userId
                  (splitItemsByDepartment po.items (getMenuItems db po.userId)).kitchenItems
                  Department.kitchen now)]) ∧
    ((splitItemsByDepartment po.items (getMenuItems db po.userId)).kitchenItems = [] →
      (approvePendingOrder db pid po now).2.kitchenOrders = db.kitchenOrders) ∧
    ((splitItemsByDepartment po.items (getMenuItems db po.userId)).barItems ≠ [] →
      ∃ bid, (approvePendingOrder db pid po now).2.barOrders
        = db.barOrders
            ++ [(bid, deptOrderDoc (approvePendingOrder db pid po now).1 po.userId
                  (splitItemsByDepartment po.items (getMenuItems db po.userId)).barItems
                  Department.bar now)]) ∧
    ((splitItemsByDepartment po.items (getMenuItems db po.userId)).barItems = [] →
      (approvePendingOrder db pid po now).2.barOrders = db.barOrders) ∧
    pid ∉ (approvePendingOrder db pid po now).2.pendingOrders.map Prod.fst := by
  rw [approvePendingOrder_unfold]
  simp only []
  set s := splitItemsByDepartment po.items (getMenuItems db po.userId) with hs
  by_cases hK : s.kitchenItems = [] <;> by_cases hB : s.barItems = [] <;>
    refine ⟨⟨?_, rfl, rfl, rfl⟩, ?_, ?_, ?_, ?_, not_mem_map_fst_filter_ne _ _⟩ <;>
    simp [hK, hB, List.length_pos, addToTableBill_orders, addToTableBill_kitchenOrders,
      addToTableBill_barOrders, sendToDepartment, addOrder, approvedOrderDoc]

/-- Store fixture for C1: owner u1 with two kitchen-resolved menu items (one
untagged) and one bar item, and the pending order on file. -/
def wDBC1 : DB :=
  { emptyDB with
      menuItems :=
        [("m1", { userId := "u1", name := "Pasta", price := 10, views := none,
                  department := some Department.kitchen, created_at := some 1 }),
         ("m2", { userId := "u1", name := "Soup", price := 8, views := none,
                  department := none, created_at := some 1 }),
         ("m3", { userId := "u1", name := "Wine", price := 12, views := none,
                  department := some Department.bar, created_at := some 1 })]
      pendingOrders :=
        [("p1", { id := "p1", userId := "u1", tableNumber := "4",
                  items := [], totalAmount := 30, timestamp := 9 })] }

/-- Pending order fixture for C1: two kitchen items, one bar item. -/
def wPOC1 : PendingOrder :=
  { id := "p1"
    userId := "u1"
    tableNumber := "4"
    items :=
      [{ id := "m1", name := "Pasta", quantity := 1, total := 10, department := none },
       { id := "m2", name := "Soup", quantity := 1, total := 8, department := none },
       { id := "m3", name := "Wine", quantity := 1, total := 12, department := none }]
    totalAmount := 30
    timestamp := 9 }

/-- Witness for C1 at the 2-kitchen/1-bar pending order: one kitchen record,
one bar record, and the pending record gone. -/
theorem approvePendingOrder_department_records_witness :
    (∃ kid, (approvePendingOrder wDBC1 "p1" wPOC1 9).2.kitchenOrders
        = wDBC1.kitchenOrders
            ++ [(kid, deptOrderDoc (approvePendingOrder wDBC1 "p1" wPOC1 9).1
                  wPOC1.userId
                  (splitItemsByDepartment wPOC1.items
                    (getMenuItems wDBC1 wPOC1.userId)).kitchenItems
                  Department.kitchen 9)]) ∧
    (∃ bid, (approvePendingOrder wDBC1 "p1" wPOC1 9).2.barOrders
        = wDBC1.barOrders
            ++ [(bid, deptOrderDoc (approvePendingOrder wDBC1 "p1" wPOC1 9).1
                  wPOC1.userId
                  (splitItemsByDepartment wPOC1.items
                    (getMenuItems wDBC1 wPOC1.userId)).barItems
                  Department.bar 9)]) ∧
    "p1" ∉ (approvePendingOrder wDBC1 "p1" wPOC1 9).2.pendingOrders.map Prod.fst := by
  have h := approvePendingOrder_department_records wDBC1 "p1" wPOC1 9
  exact ⟨h.2.1 (by decide), h.2.2.2.1 (by decide), h.2.2.2.2.2⟩

/-! ## C8: department order listing -/

/-- The stored document a returned view came from (id plus data fields; the
added `timestamp` is not part of the document). -/
def viewSource (v : DeptOrderView) : String × DeptOrderDoc :=
  (v.id,
    { orderId := v.orderId
      userId := v.userId
      items := v.items
      status := v.status
      createdAt := v.createdAt
      completedAt := v.completedAt
      department := v.department })

/-- The three reader properties over any fetched collection: the views come
from exactly the owner's documents, newest first by creation time, each with
the unified timestamp equal to its creation time. -/
theorem getDeptOrdersFrom_spec (docs : List (String × DeptOrderDoc))
    (userId : String) :
    ((getDeptOrdersFrom docs userId).map viewSource).Perm
        (docs.filter (fun p => p.2.userId = userId)) ∧
    (getDeptOrdersFrom docs userId).Pairwise
        (fun a b => b.createdAt ≤ a.createdAt) ∧
    ∀ v ∈ getDeptOrdersFrom docs userId, v.timestamp = v.createdAt := by
  refine ⟨?_, ?_, ?_⟩
  · have h : (getDeptOrdersFrom docs userId).map viewSource
        = List.insertionSort byCreatedAtDesc
            (docs.filter (fun p => p.2.userId = userId)) := by
      simp [getDeptOrdersFrom, List.map_map]
      exact List.map_id _
    rw [h]
    exact List.perm_insertionSort _ _
  · have hsorted :=
      List.sorted_insertionSort byCreatedAtDesc
        (docs.filter (fun p => p.2.userId = userId))
    unfold getDeptOrdersFrom
    exact List.pairwise_map.mpr (hsorted.imp (fun h => h))
  · intro v hv
    obtain ⟨p, _, hp⟩ := List.mem_map.mp hv
    rw [← hp]
    rfl

/-- C8 (amended): `listDepartmentOrders` returns exactly the owner's
department records, newest first by `createdAt`, and exposes `createdAt` as
the unified `timestamp` field of every returned record — `completedAt` is not
consulted. -/
theorem listDepartmentOrders_newest_first (db : DB) (userId : String)
    (department : Department) :
    ((listDepartmentOrders db userId department).map viewSource).Perm
        ((deptCollection db department).filter (fun p => p.2.userId = userId)) ∧
    (listDepartmentOrders db userId department).Pairwise
        (fun a b => b.createdAt ≤ a.createdAt) ∧
    ∀ v ∈ listDepartmentOrders db userId department,
      v.timestamp = v.createdAt := by
  cases department with
  | kitchen => exact getDeptOrdersFrom_spec db.kitchenOrders userId
  | bar => exact getDeptOrdersFrom_spec db.barOrders userId

/-- Store fixture refuting the claimed `completedAt`-preferring timestamp: a
completed kitchen record created at 3 and completed at 5. -/
def cDBC8 : DB :=
  { emptyDB with
      kitchenOrders :=
        [("k1", { orderId := "o1", userId := "u1", items := [],
                  status := "completed", createdAt := 3, completedAt := some 5,
                  department := Department.kitchen })] }

/-- Counterexample for C8 as stated: the returned record has `completedAt`
present (5) yet its unified `timestamp` is the `createdAt` value 3, not 5. -/
theorem listDepartmentOrders_timestamp_counterexample :
    (listDepartmentOrders cDBC8 "u1" Department.kitchen).map
        (fun v => (v.timestamp, v.completedAt)) = [(3, some 5)] ∧
    (3 : Nat) ≠ 5 := by
  constructor
  · rfl
  · decide

/-! ## C9: menu statistics fail-safe -/

/-- C9: `getMenuStats` never propagates a failure — either fetch failing
yields the all-zero/empty stats — an owner with zero orders gets zero
totals, empty popular/recent/monthly lists and the sum of the menu view
counters, while the other ledger reads re-raise a fetch failure unchanged. -/
theorem getMenuStats_fail_safe :
    (∀ e menuItemsRes, getMenuStats (Except.error e) menuItemsRes = emptyMenuStats) ∧
    (∀ ordersRes e, getMenuStats ordersRes (Except.error e) = emptyMenuStats) ∧
    (∀ menuItems : List MenuItem,
      getMenuStats (Except.ok []) (Except.ok menuItems)
        = { emptyMenuStats with
              totalViews :=
                menuItems.foldl (fun sum item => sum + item.views.getD 0) 0 }) ∧
    (∀ e userId, getOrdersFetched (Except.error e) userId = Except.error e) ∧
    (∀ e userId, getMenuItemsFetched (Except.error e) userId = Except.error e) := by
  refine ⟨?_, ?_, ?_, ?_, ?_⟩
  · intro e m; cases m <;> rfl
  · intro o e; cases o <;> rfl
  · intro menuItems; rfl
  · intro e u; rfl
  · intro e u; rfl

/-! ## C10: monthly revenue aggregation -/

theorem charListLe_total : ∀ a b : List Char,
    charListLe a b = true ∨ charListLe b a = true
  | [], _ => Or.inl rfl
  | _ :: _, [] => Or.inr rfl
  | a :: as, b :: bs => by
      by_cases h1 : a.toNat < b.toNat
      · left; simp [charListLe, h1]
      · by_cases h2 : b.toNat < a.toNat
        · right; simp [charListLe, h2]
        · rcases charListLe_total as bs with h | h
          · left; simp [charListLe, h1, h2, h]
          · right; simp [charListLe, h1, h2, h]

theorem charListLe_trans : ∀ a b c : List Char,
    charListLe a b = true → charListLe b c = true → charListLe a c = true
  | [], _, _, _, _ => rfl
  | _ :: _, [], _, hab, _ => by simp [charListLe] at hab
  | _ :: _, _ :: _, [], _, hbc => by simp [charListLe] at hbc
  | a :: as, b :: bs, c :: cs, hab, hbc => by
      rcases Nat.lt_trichotomy a.toNat b.toNat with h1 | h1 | h1
      · rcases Nat.lt_trichotomy b.toNat c.toNat with h3 | h3 | h3
        · have h5 : a.toNat < c.toNat := Nat.lt_trans h1 h3
          simp [charListLe, h5]
        · have h5 : a.toNat < c.toNat := h3 ▸ h1
          simp [charListLe, h5]
        · have h5 : ¬ b.toNat < c.toNat := by omega
          simp [charListLe, h5, h3] at hbc
      · rcases Nat.lt_trichotomy b.toNat c.toNat with h3 | h3 | h3
        · have h5 : a.toNat < c.toNat := h1 ▸ h3
          simp [charListLe, h5]
        · have h5 : ¬ a.toNat < c.toNat := by omega
          have h6 : ¬ c.toNat < a.toNat := by omega
          have h7 : ¬ a.toNat < b.toNat := by omega
          have h8 : ¬ b.toNat < a.toNat := by omega
          have h9 : ¬ b.toNat < c.toNat := by omega
          have h10 : ¬ c.toNat < b.toNat := by omega
          simp [charListLe, h7, h8] at hab
          simp [charListLe, h9, h10] at hbc
          simp [charListLe, h5, h6]
          exact charListLe_trans as bs cs hab hbc
        · have h5 : ¬ b.toNat < c.toNat := by omega
          simp [charListLe, h5, h3] at hbc
      · have h5 : ¬ a.toNat < b.toNat := by omega
        simp [charListLe, h5, h1] at hab

theorem charListLe_antisymm : ∀ a b : List Char,
    charListLe a b = true → charListLe b a = true → a = b
  | [], [], _, _ => rfl
  | [], _ :: _, _, hba => by simp [charListLe] at hba
  | _ :: _, [], hab, _ => by simp [charListLe] at hab
  | a :: as, b :: bs, hab, hba => by
      rcases Nat.lt_trichotomy a.toNat b.toNat with h1 | h1 | h1
      · have h2 : ¬ b.toNat < a.toNat := by omega
        simp [charListLe, h2, h1] at hba
      · have h2 : ¬ a.toNat < b.toNat := by omega
        have h3 : ¬ b.toNat < a.toNat := by omega
        simp [charListLe, h2, h3] at hab hba
        have hc : a = b := by
          have := congrArg Char.ofNat h1
          rwa [Char.ofNat_toNat, Char.ofNat_toNat] at this
        rw [hc, charListLe_antisymm as bs hab hba]
      · have h2 : ¬ a.toNat < b.toNat := by omega
        simp [charListLe, h2, h1] at hab

theorem strLe_total (a b : String) : strLe a b = true ∨ strLe b a = true :=
  charListLe_total a.data b.data

theorem strLe_trans {a b c : String} (hab : strLe a b = true)
    (hbc : strLe b c = true) : strLe a c = true :=
  charListLe_trans a.data b.data c.data hab hbc

theorem strLe_antisymm {a b : String} (hab : strLe a b = true)
    (hba : strLe b a = true) : a = b := by
  cases a with
  | mk da =>
      cases b with
      | mk db => exact congrArg String.mk (charListLe_antisymm da db hab hba)

instance : IsTotal MonthRevenue byMonthAsc :=
  ⟨fun a b => strLe_total a.month b.month⟩

instance : IsTrans MonthRevenue byMonthAsc :=
  ⟨fun _ _ _ hab hbc => strLe_trans hab hbc⟩

/-- Revenue recorded under a month key in the accumulated data, 0 when the
key is absent. -/
def monthAmount : List MonthRevenue → String → ℚ
  | [], _ => 0
  | e :: rest, k => if e.month = k then e.revenue else monthAmount rest k

/-- The total amount of the orders falling in a given month. -/
def monthRevenueOf (orders : List Order) (k : String) : ℚ :=
  ((orders.filter (fun o => monthKeyOf o.timestamp = k)).map Order.totalAmount).sum

theorem bumpMonth_months (data : List MonthRevenue) (k : String) (v : ℚ) :
    (bumpMonth data k v).map MonthRevenue.month =
      if k ∈ data.map MonthRevenue.month then data.map MonthRevenue.month
      else data.map MonthRevenue.month ++ [k] := by
  induction data with
  | nil => simp [bumpMonth]
  | cons e rest ih =>
      by_cases h : e.month = k
      · simp [bumpMonth, h]
      · by_cases hm : k ∈ rest.map MonthRevenue.month <;>
          simp [bumpMonth, h, ih, hm, List.mem_cons, Ne.symm h]

theorem bumpMonth_mem_months (data : List MonthRevenue) (k0 : String) (v : ℚ)
    (k : String) :
    k ∈ (bumpMonth data k0 v).map MonthRevenue.month ↔
      k ∈ data.map MonthRevenue.month ∨ k = k0 := by
  rw [bumpMonth_months]
  by_cases hm : k0 ∈ data.map MonthRevenue.month
  · simp only [hm, if_true]
    constructor
    · exact Or.inl
    · rintro (h | rfl)
      · exact h
      · exact hm
  · simp [hm, List.mem_append]

theorem bumpMonth_months_nodup (data : List MonthRevenue) (k : String) (v : ℚ)
    (h : (data.map MonthRevenue.month).Nodup) :
    ((bumpMonth data k v).map MonthRevenue.month).Nodup := by
  rw [bumpMonth_months]
  by_cases hm : k ∈ data.map MonthRevenue.month
  · simpa [hm] using h
  · simp [hm, List.nodup_append, h]

theorem monthAmount_bumpMonth (data : List MonthRevenue) (k : String) (v : ℚ)
    (k' : String) :
    monthAmount (bumpMonth data k v) k'
      = monthAmount data k' + if k' = k then v else 0 := by
  induction data with
  | nil =>
      by_cases h : k' = k
      · simp [bumpMonth, monthAmount, h]
      · simp [bumpMonth, monthAmount, h, Ne.symm h]
  | cons e rest ih =>
      by_cases he : e.month = k
      · by_cases h' : e.month = k'
        · have hkk : k' = k := by rw [← h', he]
          simp [bumpMonth, monthAmount, he, h', hkk]
        · have hkk : k' ≠ k := fun hh => h' (by rw [he, hh])
          simp [bumpMonth, monthAmount, he, h', hkk, Ne.symm hkk]
      · by_cases h' : e.month = k'
        · have hkk : k' ≠ k := fun hh => he (by rw [h', hh])
          simp [bumpMonth, monthAmount, he, h', hkk]
        · simp [bumpMonth, monthAmount, he, h', ih]

theorem monthlyData_go_mem : ∀ (orders : List Order) (acc : List MonthRevenue)
    (k : String),
    k ∈ ((orders.foldl
        (fun acc order =>
          bumpMonth acc (monthKeyOf order.timestamp) order.totalAmount)
        acc).map MonthRevenue.month)
      ↔ k ∈ acc.map MonthRevenue.month
          ∨ k ∈ orders.map (fun o => monthKeyOf o.timestamp)
  | [], acc, k => by simp
  | o :: rest, acc, k => by
      rw [List.foldl_cons, monthlyData_go_mem rest _ k, bumpMonth_mem_months,
        List.map_cons, List.mem_cons]
      exact or_assoc

theorem monthlyData_go_nodup : ∀ (orders : List Order) (acc : List MonthRevenue),
    (acc.map MonthRevenue.month).Nodup →
    ((orders.foldl
        (fun acc order =>
          bumpMonth acc (monthKeyOf order.timestamp) order.totalAmount)
        acc).map MonthRevenue.month).Nodup
  | [], _, h => h
  | o :: rest, acc, h => by
      rw [List.foldl_cons]
      exact monthlyData_go_nodup rest _ (bumpMonth_months_nodup _ _ _ h)

theorem monthlyData_go_amount : ∀ (orders : List Order) (acc : List MonthRevenue)
    (k : String),
    monthAmount
        (orders.foldl
          (fun acc order =>
            bumpMonth acc (monthKeyOf order.timestamp) order.totalAmount)
          acc) k
      = monthAmount acc k + monthRevenueOf orders k
  | [], acc, k => by simp [monthRevenueOf]
  | o :: rest, acc, k => by
      rw [List.foldl_cons, monthlyData_go_amount rest _ k, monthAmount_bumpMonth]
      by_cases hk : monthKeyOf o.timestamp = k
      · simp [monthRevenueOf, List.filter_cons, hk]
        ring
      · simp [monthRevenueOf, List.filter_cons, hk, Ne.symm hk]

theorem monthlyData_months_nodup (orders : List Order) :
    ((monthlyData orders).map MonthRevenue.month).Nodup :=
  monthlyData_go_nodup orders [] (by simp)

theorem monthlyData_mem (orders : List Order) (k : String) :
    k ∈ (monthlyData orders).map MonthRevenue.month
      ↔ k ∈ orders.map (fun o => monthKeyOf o.timestamp) := by
  rw [monthlyData, monthlyData_go_mem]
  simp

theorem monthlyData_amount (orders : List Order) (k : String) :
    monthAmount (monthlyData orders) k = monthRevenueOf orders k := by
  rw [monthlyData, monthlyData_go_amount]
  simp [monthAmount]

theorem revenue_eq_monthAmount_of_mem (data : List MonthRevenue)
    (hnodup : (data.map MonthRevenue.month).Nodup) :
    ∀ e ∈ data, e.revenue = monthAmount data e.month := by
  induction data with
  | nil => intro e he; cases he
  | cons x rest ih =>
      intro e he
      rcases List.mem_cons.mp he with rfl | he'
      · simp [monthAmount]
      · have hx : x.month ≠ e.month := by
          intro hXE
          have : e.month ∈ rest.map MonthRevenue.month :=
            List.mem_map_of_mem MonthRevenue.month he'
          rw [← hXE] at this
          exact (List.nodup_cons.mp hnodup).1 this
        rw [monthAmount, if_neg hx]
        exact ih (List.nodup_cons.mp hnodup).2 e he'

/-- C10: on an order history spanning 8 distinct calendar months, the monthly
revenue aggregation keeps exactly 6 entries, strictly ascending by the YYYY-MM
month key; each kept entry's revenue is the sum of the totals of the orders of
its month; and every month key of the history that was not kept sorts strictly
below every kept key — only the 6 most recent months survive. -/
theorem calculateMonthlyRevenue_last_six (orders : List Order)
    (h8 : ((orders.map (fun o => monthKeyOf o.timestamp)).dedup).length = 8) :
    (calculateMonthlyRevenue orders).length = 6 ∧
    (calculateMonthlyRevenue orders).Pairwise
        (fun a b => strLe a.month b.month = true ∧ a.month ≠ b.month) ∧
    (∀ e ∈ calculateMonthlyRevenue orders,
        e.month ∈ orders.map (fun o => monthKeyOf o.timestamp) ∧
        e.revenue = monthRevenueOf orders e.month) ∧
    (∀ k ∈ orders.map (fun o => monthKeyOf o.timestamp),
        k ∉ (calculateMonthlyRevenue orders).map MonthRevenue.month →
        ∀ e ∈ calculateMonthlyRevenue orders,
          strLe k e.month = true ∧ k ≠ e.month) := by
  have hmdnodup := monthlyData_months_nodup orders
  have hperm : (List.insertionSort byMonthAsc (monthlyData orders)).Perm
      (monthlyData orders) := List.perm_insertionSort _ _
  have hsortednodup :
      ((List.insertionSort byMonthAsc (monthlyData orders)).map
        MonthRevenue.month).Nodup :=
    ((hperm.map MonthRevenue.month).nodup_iff).mpr hmdnodup
  have hLsorted :
      (List.insertionSort byMonthAsc (monthlyData orders)).Pairwise byMonthAsc :=
    List.sorted_insertionSort _ _
  have hmdperm : ((monthlyData orders).map MonthRevenue.month).Perm
      ((orders.map (fun o => monthKeyOf o.timestamp)).dedup) := by
    rw [List.perm_ext_iff_of_nodup hmdnodup (List.nodup_dedup _)]
    intro a
    rw [List.mem_dedup]
    exact monthlyData_mem orders a
  have hmdlen : (monthlyData orders).length = 8 := by
    have hl := hmdperm.length_eq
    rw [List.length_map] at hl
    rw [hl, h8]
  have hslen : (List.insertionSort byMonthAsc (monthlyData orders)).length = 8 :=
    hperm.length_eq.trans hmdlen
  have hres : calculateMonthlyRevenue orders
      = (List.insertionSort byMonthAsc (monthlyData orders)).drop 2 := by
    show (List.insertionSort byMonthAsc (monthlyData orders)).drop
        ((List.insertionSort byMonthAsc (monthlyData orders)).length - 6)
      = (List.insertionSort byMonthAsc (monthlyData orders)).drop 2
    rw [hslen]
  have hsplitS : (List.insertionSort byMonthAsc (monthlyData orders)).take 2
      ++ (List.insertionSort byMonthAsc (monthlyData orders)).drop 2
      = List.insertionSort byMonthAsc (monthlyData orders) :=
    List.take_append_drop _ _
  rw [hres]
  refine ⟨?_, ?_, ?_, ?_⟩
  · rw [List.length_drop, hslen]
  · have h1 : ((List.insertionSort byMonthAsc (monthlyData orders)).drop 2).Pairwise
        byMonthAsc :=
      List.Pairwise.sublist (List.drop_sublist _ _) hLsorted
    have h2 : (((List.insertionSort byMonthAsc (monthlyData orders)).drop 2).map
        MonthRevenue.month).Nodup :=
      List.Nodup.sublist ((List.drop_sublist _ _).map _) hsortednodup
    have h3 := List.pairwise_map.mp h2
    exact h1.and h3
  · intro e he
    have heS : e ∈ List.insertionSort byMonthAsc (monthlyData orders) :=
      List.mem_of_mem_drop he
    have hemd : e ∈ monthlyData orders := hperm.mem_iff.mp heS
    constructor
    · exact (monthlyData_mem orders e.month).mp
        (List.mem_map_of_mem MonthRevenue.month hemd)
    · rw [revenue_eq_monthAmount_of_mem _ hmdnodup e hemd, monthlyData_amount]
  · intro k hk hnot e he
    have hkmd : k ∈ (monthlyData orders).map MonthRevenue.month :=
      (monthlyData_mem orders k).mpr hk
    obtain ⟨x, hxmd, hxk⟩ := List.mem_map.mp hkmd
    have hxS : x ∈ List.insertionSort byMonthAsc (monthlyData orders) :=
      hperm.mem_iff.mpr hxmd
    have hxtake : x ∈ (List.insertionSort byMonthAsc (monthlyData orders)).take 2 := by
      rcases List.mem_append.mp (by rw [hsplitS]; exact hxS) with h | h
      · exact h
      · exact absurd (hxk ▸ List.mem_map_of_mem MonthRevenue.month h) hnot
    have hpairappend := hLsorted
    rw [← hsplitS] at hpairappend
    have hord : byMonthAsc x e :=
      (List.pairwise_append.mp hpairappend).2.2 x hxtake e he
    have hnodupapp := hsortednodup
    rw [← hsplitS, List.map_append] at hnodupapp
    have hdisj := (List.nodup_append.mp hnodupapp).2.2
    have hne : x.month ≠ e.month := by
      intro hEq
      exact hdisj (List.mem_map_of_mem MonthRevenue.month hxtake)
        (hEq ▸ List.mem_map_of_mem MonthRevenue.month he)
    exact ⟨hxk ▸ hord, hxk ▸ hne⟩

/-- Order history fixture for C10: eight orders, one per month of 2024-01
through 2024-08 (timestamps count calendar months: 2024·12 + monthIndex). -/
def wOrderC10 (name : String) (amount : ℚ) (t : Timestamp) : Order :=
  { id := name
    userId := "u1"
    tableNumber := "1"
    items := []
    totalAmount := amount
    status := "approved"
    paymentStatus := "pending"
    timestamp := t }

def wOrdersC10 : List Order :=
  [wOrderC10 "o1" 10 24288, wOrderC10 "o2" 11 24289, wOrderC10 "o3" 12 24290,
   wOrderC10 "o4" 13 24291, wOrderC10 "o5" 14 24292, wOrderC10 "o6" 15 24293,
   wOrderC10 "o7" 16 24294, wOrderC10 "o8" 17 24295]

/-- Witness for C10 at the eight-month history. -/
theorem calculateMonthlyRevenue_last_six_witness :
    (calculateMonthlyRevenue wOrdersC10).length = 6 ∧
    (calculateMonthlyRevenue wOrdersC10).Pairwise
        (fun a b => strLe a.month b.month = true ∧ a.month ≠ b.month) ∧
    (∀ e ∈ calculateMonthlyRevenue wOrdersC10,
        e.month ∈ wOrdersC10.map (fun o => monthKeyOf o.timestamp) ∧
        e.revenue = monthRevenueOf wOrdersC10 e.month) ∧
    (∀ k ∈ wOrdersC10.map (fun o => monthKeyOf o.timestamp),
        k ∉ (calculateMonthlyRevenue wOrdersC10).map MonthRevenue.month →
        ∀ e ∈ calculateMonthlyRevenue wOrdersC10,
          strLe k e.month = true ∧ k ≠ e.month) :=
  calculateMonthlyRevenue_last_six wOrdersC10 (by decide)
